import Mathlib

/-!
# Verification of the MOSAIC multi-platform extraction orchestrator

Shallow embedding of `src/modules/Collecte.py`: the platform extractors
(GitHub, Stack Overflow, YouTube, Bluesky, Mastodon, Reddit, Medium,
Telegram), their shared persistence helper `_save_json`, the candidate
selection parsers, the pagination loops, and the orchestrator's
extraction loop.

Modelling conventions:
* Python strings are `List Char` (`Str` below); Python string methods
  (`strip`, `split`, `replace`, `in`, `int(...)`) are embedded as
  executable functions on character lists.
* Network I/O is an environment: each extractor's `run` takes a record of
  oracle fields, one per HTTP call site. `none` models a caught request
  exception (or an unusable response) at that call site.
* The current wall-clock instant is an explicit `PyDateTime` argument;
  a run's calls to `datetime.now()` are modelled as reading that instant.
* File writes are explicit: each `run` returns the pair of its Python
  return value (`Optional[str]` filename) and the list of `(filename,
  document)` writes it performed.
* Response payloads whose internal structure no claim inspects
  (profile dicts, repo dicts, post dicts, ...) are abstracted to opaque
  `Str` payloads; the fields the claims do inspect (list structure,
  `extraction_date`, filenames) are modelled exactly.
-/

/-- Python strings, embedded as lists of characters. -/
abbrev Str := List Char

/-- The whitespace characters stripped by Python's `str.strip()`. -/
def isPySpace (c : Char) : Bool :=
  c = ' ' || c = '\t' || c = '\n' || c = '\r' || c = '\x0b' || c = '\x0c'

/-- Python `str.strip()`: remove leading and trailing whitespace. -/
def pyStrip (l : Str) : Str :=
  ((l.dropWhile isPySpace).reverse.dropWhile isPySpace).reverse

/-- Python `str.replace(c, '')`: remove every occurrence of a character. -/
def removeChar (c : Char) (l : Str) : Str :=
  l.filter (fun x => x ≠ c)

/-- Python `str.split(sep)` for a one-character separator: always returns
at least one (possibly empty) piece. -/
def splitChar (sep : Char) : Str → List Str
  | [] => [[]]
  | c :: rest =>
    let r := splitChar sep rest
    if c = sep then [] :: r
    else
      match r with
      | [] => [[c]]
      | h :: t => (c :: h) :: t

/-- Python's `in` on strings: `needle ∈ haystack` as substring test. -/
def strContains (needle hay : Str) : Bool :=
  if needle.isPrefixOf hay then true
  else
    match hay with
    | [] => false
    | _ :: t => strContains needle t

/-- Digit run accepted by Python `int(...)`: nonempty digits, with single
underscores allowed between digits; returns the decimal value. -/
def pyDigitsAux (acc : Nat) : Str → Option Nat
  | [] => some acc
  | '_' :: c :: rest =>
    if c.isDigit then pyDigitsAux (acc * 10 + (c.toNat - 48)) rest else none
  | c :: rest =>
    if c.isDigit then pyDigitsAux (acc * 10 + (c.toNat - 48)) rest else none

/-- The digit part of Python `int(...)`: must start with a digit. -/
def pyDigits : Str → Option Nat
  | [] => none
  | c :: rest =>
    if c.isDigit then pyDigitsAux (c.toNat - 48) rest else none

/-- Python `int(s)` on a string: strips whitespace, optional sign, then a
digit run; `none` models a raised `ValueError`. -/
def pyInt (l : Str) : Option Int :=
  match pyStrip l with
  | '+' :: rest => (pyDigits rest).map Int.ofNat
  | '-' :: rest => (pyDigits rest).map (fun n => -(n : Int))
  | rest => (pyDigits rest).map Int.ofNat

/-- A naive local timestamp as produced by `datetime.now()`. -/
structure PyDateTime where
  year : Nat
  month : Nat
  day : Nat
  hour : Nat
  minute : Nat
  second : Nat
  microsecond : Nat
deriving DecidableEq

/-- The character for a single decimal digit. -/
def digitChar (d : Nat) : Char := Char.ofNat (48 + d)

/-- Decimal digit characters of `n`, most significant first (fuelled
structural recursion; `fuel > n` always suffices). Empty for `n = 0`. -/
def natToDigits (fuel n : Nat) : Str :=
  match fuel with
  | 0 => []
  | fuel + 1 =>
    if n = 0 then [] else natToDigits fuel (n / 10) ++ [digitChar (n % 10)]

/-- Zero-padded decimal rendering of width `w`, as in `strftime`'s
`%04d`-style fields. -/
def padDigits (w n : Nat) : Str :=
  let ds := natToDigits (n + 1) n
  List.replicate (w - ds.length) '0' ++ ds

/-- `datetime.strftime('%Y%m%d_%H%M%S')` as used by
`BaseExtractor._save_json`. -/
def strftimeCompact (t : PyDateTime) : Str :=
  padDigits 4 t.year ++ (padDigits 2 t.month ++ (padDigits 2 t.day ++
    ('_' :: (padDigits 2 t.hour ++ (padDigits 2 t.minute ++ padDigits 2 t.second)))))

/-- The filename built by `BaseExtractor._save_json`:
`f"{self.platform_name}_{username}_{timestamp}.json"`. -/
def saveJsonFilename (platform username : Str) (t : PyDateTime) : Str :=
  platform ++ '_' :: (username ++ '_' :: (strftimeCompact t ++ ".json".toList))

/-- `datetime.isoformat()` for a naive datetime: `YYYY-MM-DDTHH:MM:SS`,
with `.ffffff` appended exactly when the microsecond field is nonzero. -/
def pyIsoformat (t : PyDateTime) : Str :=
  padDigits 4 t.year ++ '-' :: (padDigits 2 t.month ++ '-' :: (padDigits 2 t.day ++
    'T' :: (padDigits 2 t.hour ++ ':' :: (padDigits 2 t.minute ++
    ':' :: (padDigits 2 t.second ++
    (if t.microsecond = 0 then [] else '.' :: padDigits 6 t.microsecond))))))

/-- All characters are decimal digits. -/
def isDigits (l : Str) : Bool := l.all Char.isDigit

/-- Match a string against a format mask: `'D'` in the mask stands for
any decimal digit, every other mask character stands for itself. -/
def matchesMask : Str → Str → Bool
  | [], [] => true
  | m :: ms, c :: cs =>
    (if m = 'D' then c.isDigit else c = m) && matchesMask ms cs
  | _, _ => false

/-- Mask of an ISO-8601 local datetime without fractional seconds. -/
def isoMaskBase : Str := "DDDD-DD-DDTDD:DD:DD".toList

/-- Mask of an ISO-8601 local datetime with microseconds. -/
def isoMaskMicro : Str := "DDDD-DD-DDTDD:DD:DD.DDDDDD".toList

/-- ISO-8601 shape check for the strings Python's `isoformat()` emits. -/
def isIso8601 (l : Str) : Bool :=
  matchesMask isoMaskBase l || matchesMask isoMaskMicro l

/-!
## Candidate selection (`StackOverflowExtractor._select_user`,
`YouTubeExtractor._select_channels`)

Both parse the same comma-separated 1-based index list over `n`
candidates. The returned pair is `(selected 0-based indices, warned)`;
`warned` records the "Invalid selection, using first ..." warning.
A `ValueError` raised by `int(part.strip())` aborts the whole parse and
is caught by the surrounding `except`, which falls back to the first
candidate. Lean totality models the code's exception-freedom: every
raisable exception in the selection body is caught by that `except`.
-/

/-- The `for part in choice.split(',')` parse loop shared by both
selectors: `none` models a `ValueError` escaping the loop. -/
def parseSelectionAux (n : Nat) : List Str → List Nat → Option (List Nat)
  | [], acc => some acc
  | part :: rest, acc =>
    match pyInt (pyStrip part) with
    | none => none
    | some v =>
      if 0 ≤ v - 1 ∧ v - 1 < (n : Int) then
        parseSelectionAux n rest (acc ++ [(v - 1).toNat])
      else
        parseSelectionAux n rest acc

/-- Core of `StackOverflowExtractor._select_user` over `n` candidates:
empty input selects all, a parse error or an all-out-of-range input
falls back to the first candidate with a warning. -/
def selectUserIndices (n : Nat) (choice : Str) : List Nat × Bool :=
  let c := pyStrip choice
  if c = [] then (List.range n, false)
  else
    match parseSelectionAux n (splitChar ',' c) [] with
    | none => ([0], true)
    | some [] => ([0], true)
    | some idxs => (idxs, false)

/-- Core of `YouTubeExtractor._select_channels`: same parse, selection
and fallback logic as `_select_user` (the `except` clause additionally
names `IndexError`, which changes nothing reachable). -/
def selectChannelIndices (n : Nat) (choice : Str) : List Nat × Bool :=
  let c := pyStrip choice
  if c = [] then (List.range n, false)
  else
    match parseSelectionAux n (splitChar ',' c) [] with
    | none => ([0], true)
    | some [] => ([0], true)
    | some idxs => (idxs, false)

/-!
## Pagination loops

Each loop takes the upstream source as a function (request in, response
out); `none` models a caught `requests.RequestException`. The loops
return the collected items together with the number of page requests
issued.
-/

/-- Hard cap of `BlueskyExtractor._get_posts` (`max_posts = 200`). -/
def bskyMaxPosts : Nat := 200

/-- The `while len(all_posts) < max_posts` loop of
`BlueskyExtractor._get_posts`: request the feed page for `cursor`,
stop on exception, empty feed, or missing/empty next cursor. -/
def getPostsLoop (server : Option Str → Option (List Str × Option Str))
    (acc : List Str) (cursor : Option Str) (reqs : Nat) : List Str × Nat :=
  if h : acc.length < bskyMaxPosts then
    match server cursor with
    | none => (acc, reqs + 1)
    | some (feed, next) =>
      if hfeed : feed = [] then (acc, reqs + 1)
      else
        let acc' := acc ++ feed
        match next with
        | none => (acc', reqs + 1)
        | some c =>
          if c = [] then (acc', reqs + 1)
          else getPostsLoop server acc' (some c) (reqs + 1)
  else (acc, reqs)
termination_by bskyMaxPosts - acc.length
decreasing_by
  have : 0 < feed.length := List.length_pos.mpr hfeed
  simp only [List.length_append]
  omega

/-- `BlueskyExtractor._get_posts`: run the loop from an empty list and
no cursor, then truncate to the cap (`all_posts[:max_posts]`). -/
def bskyGetPosts (server : Option Str → Option (List Str × Option Str)) :
    List Str × Nat :=
  let r := getPostsLoop server [] none 0
  (r.1.take bskyMaxPosts, r.2)

/-- The `for link in links` loop of `MastodonExtractor._parse_link_header`. -/
def parseLinkHeaderGo (rel : Str) : List Str → Option Str
  | [] => none
  | link :: rest =>
    match splitChar ';' link with
    | [p0, p1] =>
      let url := ((pyStrip p0).drop 1).dropLast
      let relPart := pyStrip p1
      if strContains ("rel=\"".toList ++ rel ++ "\"".toList) relPart then some url
      else parseLinkHeaderGo rel rest
    | _ => parseLinkHeaderGo rel rest

/-- `MastodonExtractor._parse_link_header`: extract the URL of the
`rel="next"` entry of an HTTP `Link` header. -/
def parseLinkHeader (linkHeader rel : Str) : Option Str :=
  if linkHeader = [] then none
  else parseLinkHeaderGo rel (splitChar ',' linkHeader)

/-- Hard cap of `MastodonExtractor._get_statuses` (`max_toots = 200`). -/
def mastoMaxToots : Nat := 200

/-- The `while len(all_statuses) < max_toots` loop of
`MastodonExtractor._get_statuses`: request `url`, stop on exception,
empty page, or a `Link` header without a `rel="next"` entry. The server
answers a URL with the page's statuses and the response's `Link`
header. -/
def getStatusesLoop (server : Str → Option (List Str × Str))
    (acc : List Str) (url : Str) (reqs : Nat) : List Str × Nat :=
  if h : acc.length < mastoMaxToots then
    match server url with
    | none => (acc, reqs + 1)
    | some (statuses, linkHeader) =>
      if hpage : statuses = [] then (acc, reqs + 1)
      else
        let acc' := acc ++ statuses
        match parseLinkHeader linkHeader "next".toList with
        | none => (acc', reqs + 1)
        | some nextUrl => getStatusesLoop server acc' nextUrl (reqs + 1)
  else (acc, reqs)
termination_by mastoMaxToots - acc.length
decreasing_by
  have : 0 < statuses.length := List.length_pos.mpr hpage
  simp only [List.length_append]
  omega

/-- `MastodonExtractor._get_statuses`: run the loop from the account's
statuses URL, then truncate to the cap (`all_statuses[:max_toots]`). -/
def mastoGetStatuses (server : Str → Option (List Str × Str)) (initUrl : Str) :
    List Str × Nat :=
  let r := getStatusesLoop server [] initUrl 0
  (r.1.take mastoMaxToots, r.2)

/-- Hard cap of `TelegramExtractor._extract_messages` (`max_messages = 800`). -/
def tgMaxMessages : Nat := 800

/-- `TelegramExtractor._extract_messages`: the telethon client's
`iter_messages(username, limit=max_messages)` yields at most the limit
from the available stream; an exception during iteration returns `[]`. -/
def tgExtractMessages (stream : Option (List Str)) : List Str :=
  match stream with
  | none => []
  | some msgs => msgs.take tgMaxMessages

/-!
## Bluesky handle resolution (`BlueskyExtractor._resolve_handle`)
-/

/-- `handle.replace('@', '').strip()` at the top of `_resolve_handle`. -/
def cleanHandle (handle : Str) : Str := pyStrip (removeChar '@' handle)

/-- The `handles_to_try` list: the cleaned input, and additionally
`{h}.bsky.social` and `{h}.com` only when the cleaned input contains no
dot. -/
def handlesToTry (handle : Str) : List Str :=
  let h := cleanHandle handle
  if '.' ∈ h then [h]
  else [h, h ++ ".bsky.social".toList, h ++ ".com".toList]

/-- The `for h in handles_to_try` loop: first variant the resolver maps
to a DID wins; an exception or a missing/falsy `did` tries the next. -/
def tryResolve (resolve : Str → Option Str) : List Str → Option Str
  | [] => none
  | h :: rest =>
    match resolve h with
    | some did => some did
    | none => tryResolve resolve rest

/-- `BlueskyExtractor._resolve_handle`. -/
def resolveHandle (resolve : Str → Option Str) (handle : Str) : Option Str :=
  tryResolve resolve (handlesToTry handle)

/-- The resolution order claimed by the spec: the literal input, then
`{input}.bsky.social`, then `{input}.com`, for every input. -/
def claimC2Tried (resolve : Str → Option Str) (input : Str) : Option Str :=
  tryResolve resolve [input, input ++ ".bsky.social".toList, input ++ ".com".toList]

/-- Concrete resolver oracle: only `a.b.bsky.social` has a DID. -/
def c2Oracle (h : Str) : Option Str :=
  if h = "a.b.bsky.social".toList then some "did:plc:sample".toList else none

/-!
## Platform clients: environments, documents and `run`

Each `run` returns `(Optional[str] result, performed file writes)`.
-/

/-- Environment of `GitHubExtractor.run`: `_get_user_info` (fatal on
failure), `_get_repositories` and `_get_events` (both degrade to `[]`
on a caught `RequestException`). -/
structure GitHubEnv where
  profile : Option Str
  repos : Option (List Str)
  events : Option (List Str)
deriving DecidableEq

/-- The `data` dict assembled by `GitHubExtractor.run`. -/
structure GitHubDoc where
  user_info : Str
  repositories : List Str
  events : List Str
  extraction_date : Str
deriving DecidableEq

/-- `GitHubExtractor.run`. -/
def githubRun (env : GitHubEnv) (t : PyDateTime) (username : Str) :
    Option Str × List (Str × GitHubDoc) :=
  match env.profile with
  | none => (none, [])
  | some info =>
    let repos := env.repos.getD []
    let events := env.events.getD []
    let data : GitHubDoc := ⟨info, repos, events, pyIsoformat t⟩
    let fn := saveJsonFilename "github".toList username t
    (some fn, [(fn, data)])

/-- A Stack Overflow user search hit (`user_id`, `display_name`). -/
structure SOUser where
  user_id : Nat
  display_name : Str
deriving DecidableEq

/-- Environment of `StackOverflowExtractor.run`: `_search_users`
(`none` = exception, `some []` = no hits, both fatal), the interactive
selection input, and `_extract_user_data` per selected user id (`none`
= profile fetch failed for that user). -/
structure SOEnv where
  search : Option (List SOUser)
  choice : Str
  userData : Nat → Option Str

/-- The `export_data` dict assembled by `StackOverflowExtractor.run`. -/
structure SODoc where
  users : List Str
  total_users : Nat
  extraction_date : Str
deriving DecidableEq

/-- `StackOverflowExtractor.run`. -/
def soRun (env : SOEnv) (t : PyDateTime) (username : Str) :
    Option Str × List (Str × SODoc) :=
  match env.search with
  | none => (none, [])
  | some users =>
    if users = [] then (none, [])
    else
      let sel := (selectUserIndices users.length env.choice).1
      let ids := sel.map fun i => (users.getD i ⟨0, []⟩).user_id
      if ids = [] then (none, [])
      else
        let datas := ids.filterMap env.userData
        if datas = [] then (none, [])
        else
          let doc : SODoc := ⟨datas, datas.length, pyIsoformat t⟩
          let fn := saveJsonFilename "stackoverflow".toList username t
          (some fn, [(fn, doc)])

/-- A YouTube channel search hit. -/
structure YTChannel where
  id : Str
  title : Str
deriving DecidableEq

/-- Environment of `YouTubeExtractor.run`: configured API key,
`_search_channels` (`none` covers both exception and zero hits, fatal),
the interactive selection input, and `_extract_channel_data` per
selected channel id. -/
structure YTEnv where
  apiKey : Bool
  search : Option (List YTChannel)
  choice : Str
  channelData : Str → Option Str

/-- The `export_data` dict assembled by `YouTubeExtractor.run`. -/
structure YTDoc where
  channels : List Str
  total_channels : Nat
  extraction_date : Str
deriving DecidableEq

/-- `YouTubeExtractor.run`. -/
def ytRun (env : YTEnv) (t : PyDateTime) (username : Str) :
    Option Str × List (Str × YTDoc) :=
  if !env.apiKey then (none, [])
  else
    match env.search with
    | none => (none, [])
    | some channels =>
      if channels = [] then (none, [])
      else
        let sel := (selectChannelIndices channels.length env.choice).1
        let ids := sel.map fun i => (channels.getD i ⟨[], []⟩).id
        if ids = [] then (none, [])
        else
          let datas := ids.filterMap env.channelData
          if datas = [] then (none, [])
          else
            let doc : YTDoc := ⟨datas, datas.length, pyIsoformat t⟩
            let fn := saveJsonFilename "youtube".toList username t
            (some fn, [(fn, doc)])

/-- Environment of `BlueskyExtractor.run`: the
`com.atproto.identity.resolveHandle` oracle (per tried variant), the
`getProfile` oracle (by DID, fatal on failure), and the `getAuthorFeed`
page server (by cursor). -/
structure BskyEnv where
  resolve : Str → Option Str
  profile : Str → Option Str
  feed : Option Str → Option (List Str × Option Str)

/-- The `data` dict assembled by `BlueskyExtractor.run`. -/
structure BskyDoc where
  profile : Str
  posts : List Str
  extraction_date : Str
deriving DecidableEq

/-- `BlueskyExtractor.run`. -/
def bskyRun (env : BskyEnv) (t : PyDateTime) (username : Str) :
    Option Str × List (Str × BskyDoc) :=
  match resolveHandle env.resolve username with
  | none => (none, [])
  | some did =>
    match env.profile did with
    | none => (none, [])
    | some prof =>
      let posts := (bskyGetPosts env.feed).1
      let data : BskyDoc := ⟨prof, posts, pyIsoformat t⟩
      let fn := saveJsonFilename "bluesky".toList username t
      (some fn, [(fn, data)])

/-- Environment of `MastodonExtractor.run`: the `accounts/lookup` call
(`none` = exception, fatal; on success the account id and payload) and
the statuses page server (by URL). -/
structure MastoEnv where
  account : Option (Str × Str)
  statuses : Str → Option (List Str × Str)

/-- The `data` dict assembled by `MastodonExtractor.run`. -/
structure MastoDoc where
  account : Str
  statuses : List Str
  extraction_date : Str
deriving DecidableEq

/-- The first statuses URL, `f"{self.api_url}/accounts/{account_id}/statuses"`. -/
def mastoStatusesUrl (accountId : Str) : Str :=
  "/api/v1/accounts/".toList ++ accountId ++ "/statuses".toList

/-- `MastodonExtractor.run`. -/
def mastoRun (env : MastoEnv) (t : PyDateTime) (username : Str) :
    Option Str × List (Str × MastoDoc) :=
  match env.account with
  | none => (none, [])
  | some (accountId, accountInfo) =>
    let statuses := (mastoGetStatuses env.statuses (mastoStatusesUrl accountId)).1
    let data : MastoDoc := ⟨accountInfo, statuses, pyIsoformat t⟩
    let fn := saveJsonFilename "mastodon".toList username t
    (some fn, [(fn, data)])

/-- Environment of `RedditExtractor.run`: the `about.json` lookup
(`none` = exception or missing `data` field, both fatal) and the two
secondary collections (degrade to `[]` on a caught exception). -/
structure RedditEnv where
  about : Option Str
  posts : Option (List Str)
  comments : Option (List Str)
deriving DecidableEq

/-- The `data` dict assembled by `RedditExtractor.run`. -/
structure RedditDoc where
  user_info : Str
  posts : List Str
  comments : List Str
  extraction_date : Str
deriving DecidableEq

/-- `RedditExtractor.run`. -/
def redditRun (env : RedditEnv) (t : PyDateTime) (username : Str) :
    Option Str × List (Str × RedditDoc) :=
  match env.about with
  | none => (none, [])
  | some info =>
    let posts := env.posts.getD []
    let comments := env.comments.getD []
    let data : RedditDoc := ⟨info, posts, comments, pyIsoformat t⟩
    let fn := saveJsonFilename "reddit".toList username t
    (some fn, [(fn, data)])

/-- Environment of `MediumExtractor.run`: `_fetch_articles` returns the
parsed feed items, `none` on a fetch or XML parse failure. -/
structure MediumEnv where
  feed : Option (List Str)
deriving DecidableEq

/-- The `data` dict assembled by `MediumExtractor.run`. -/
structure MediumDoc where
  articles : List Str
  extraction_date : Str
deriving DecidableEq

/-- `MediumExtractor.run`: `if not articles: return None` treats a fetch
failure (`None`) and a parsed-but-empty feed (`[]`) identically. -/
def mediumRun (env : MediumEnv) (t : PyDateTime) (username : Str) :
    Option Str × List (Str × MediumDoc) :=
  match env.feed with
  | none => (none, [])
  | some articles =>
    if articles = [] then (none, [])
    else
      let data : MediumDoc := ⟨articles, pyIsoformat t⟩
      let fn := saveJsonFilename "medium".toList username t
      (some fn, [(fn, data)])

/-- Environment of `TelegramExtractor.run`: configured credentials,
connection success, the entity lookup (`none` = not found or failed,
fatal), and the message stream available to `iter_messages` (`none` =
exception during iteration). -/
structure TgEnv where
  hasCreds : Bool
  connectOk : Bool
  entity : Option Str
  stream : Option (List Str)
deriving DecidableEq

/-- The `data` dict assembled by `TelegramExtractor._run_async`. -/
structure TgDoc where
  entity_info : Str
  messages : List Str
  extraction_date : Str
deriving DecidableEq

/-- `TelegramExtractor.run` (the awaited `_run_async`). -/
def tgRun (env : TgEnv) (t : PyDateTime) (username : Str) :
    Option Str × List (Str × TgDoc) :=
  if !env.hasCreds then (none, [])
  else if !env.connectOk then (none, [])
  else
    match env.entity with
    | none => (none, [])
    | some info =>
      let messages := tgExtractMessages env.stream
      let data : TgDoc := ⟨info, messages, pyIsoformat t⟩
      let fn := saveJsonFilename "telegram".toList username t
      (some fn, [(fn, data)])

/-!
## Orchestrator (`ExtractorOrchestrator._run_extractions`)
-/

/-- What `extractor.run(username)` does for one platform, seen from the
orchestrator: returns a filename, returns `None`, or raises. -/
inductive RunOutcome where
  | ok (filename : Str)
  | failed
  | raised
deriving DecidableEq

/-- One platform slot of an extraction run: the platform name, the
target username, whether `_create_extractor` succeeds, and what the
extractor's `run` does when invoked. -/
structure PlatformTask where
  name : Str
  username : Str
  createOk : Bool
  outcome : RunOutcome
deriving DecidableEq

/-- One entry of `self.results`. -/
structure PResult where
  username : Str
  success : Bool
  filename : Option Str
deriving DecidableEq

/-- `shutil.move(filename, self.results_dir / filename)`: the stored
path inside the shared results directory. -/
def movedPath (fn : Str) : Str := "results/".toList ++ fn

/-- The `self.results[platform_name] = ...` entry recorded for one
platform: success with the moved path, or failure; a raised exception
is caught and recorded as failure. -/
def taskResult (task : PlatformTask) : PResult :=
  if task.createOk then
    match task.outcome with
    | .ok fn => ⟨task.username, true, some (movedPath fn)⟩
    | .failed => ⟨task.username, false, none⟩
    | .raised => ⟨task.username, false, none⟩
  else ⟨task.username, false, none⟩

/-- Python dict assignment `d[k] = v` on an association list. -/
def dictInsert (k : Str) (v : PResult) : List (Str × PResult) → List (Str × PResult)
  | [] => [(k, v)]
  | (k', v') :: rest =>
    if k' = k then (k, v) :: rest else (k', v') :: dictInsert k v rest

/-- Python dict lookup `d.get(k)` on an association list. -/
def dictLookup (k : Str) : List (Str × PResult) → Option PResult
  | [] => none
  | (k', v) :: rest => if k' = k then some v else dictLookup k rest

/-- `ExtractorOrchestrator._run_extractions`: process every selected
platform in order, recording one outcome per platform; no outcome of
one platform stops the loop. -/
def runExtractions (tasks : List PlatformTask)
    (results : List (Str × PResult)) : List (Str × PResult) :=
  match tasks with
  | [] => results
  | task :: rest => runExtractions rest (dictInsert task.name (taskResult task) results)

/-!
## Mock paginated sources for the termination claim
-/

/-- Cursor string the Bluesky mock hands out for page `i` (`i ≥ 2`):
`i` copies of `'c'`, so the page index is recoverable as the length. -/
def bskyCursor (i : Nat) : Option Str :=
  if i = 1 then none else some (List.replicate i 'c')

/-- Mock Bluesky feed server: pages `1..K` hold `N` copies of `item`;
the response for page `i < K` carries the cursor for page `i + 1`, the
response for page `K` carries no cursor. -/
def bskyMock (N K : Nat) (item : Str) (cursor : Option Str) :
    Option (List Str × Option Str) :=
  let i := match cursor with | none => 1 | some c => c.length
  if 1 ≤ i ∧ i ≤ K then
    some (List.replicate N item, if i < K then some (List.replicate (i + 1) 'c') else none)
  else none

/-- URL of page `i` of the Mastodon mock: `i` copies of `'u'`. -/
def mastoUrl (i : Nat) : Str := List.replicate i 'u'

/-- A `Link` response header whose sole entry is `<url>; rel="next"`. -/
def mkNextHeader (url : Str) : Str :=
  '<' :: (url ++ '>' :: ';' :: ' ' :: "rel=\"next\"".toList)

/-- Mock Mastodon statuses server: pages `1..K` hold `N` copies of
`item`; the response for page `i < K` carries a `Link` header pointing
at page `i + 1`, the response for page `K` carries an empty header. -/
def mastoMock (N K : Nat) (item : Str) (url : Str) : Option (List Str × Str) :=
  let i := url.length
  if 1 ≤ i ∧ i ≤ K then
    some (List.replicate N item, if i < K then mkNextHeader (mastoUrl (i + 1)) else [])
  else none

/-!
## Claim-side predicates for the filename convention
-/

/-- The filename shape asserted by the claim:
`{platform}_{identity}_{14-digit-timestamp}.json` with the timestamp a
single run of 14 digits. -/
def claimC1Pattern (platform identity fn : Str) : Prop :=
  ∃ ts : Str, fn = platform ++ '_' :: (identity ++ '_' :: (ts ++ ".json".toList))
    ∧ ts.length = 14 ∧ isDigits ts = true

/-- The filename shape the code actually produces:
`{platform}_{identity}_{8-digit-date}_{6-digit-time}.json` — the 14
timestamp digits are split by an underscore (`%Y%m%d_%H%M%S`). -/
def amendedC1Pattern (platform identity fn : Str) : Prop :=
  ∃ dpart tpart : Str,
    fn = platform ++ '_' :: (identity ++ '_' :: (dpart ++ '_' :: (tpart ++ ".json".toList)))
    ∧ dpart.length = 8 ∧ isDigits dpart = true
    ∧ tpart.length = 6 ∧ isDigits tpart = true

/-- A run result performed exactly one file write, under the expected
filename, and the written document's `extraction_date` is the
`isoformat` of the extraction instant. -/
def savedOnce {α : Type} (result : Option Str × List (Str × α))
    (expectedFn : Str) (dateOf : α → Str) (t : PyDateTime) : Prop :=
  result.1 = some expectedFn ∧
  ∃ doc, result.2 = [(expectedFn, doc)] ∧ dateOf doc = pyIsoformat t

/-!
## Helper lemmas: decimal padding
-/

theorem natToDigits_length {fuel n k : Nat} (hfuel : n < fuel) (hk : n < 10 ^ k) :
    (natToDigits fuel n).length ≤ k := by
  induction fuel generalizing n k with
  | zero => omega
  | succ fuel ih =>
    rw [natToDigits]
    by_cases h0 : n = 0
    · simp [h0]
    · simp only [h0, if_false, List.length_append, List.length_cons, List.length_nil]
      match k with
      | 0 => omega
      | k + 1 =>
        have hdiv : n / 10 < 10 ^ k := by
          rw [Nat.div_lt_iff_lt_mul (by norm_num)]
          calc n < 10 ^ (k + 1) := hk
          _ = 10 ^ k * 10 := by ring
        have hlt : n / 10 < fuel := by
          have := Nat.div_lt_self (Nat.pos_of_ne_zero h0) (by norm_num : 1 < 10)
          omega
        have := ih hlt hdiv
        omega

theorem digitChar_isDigit {d : Nat} (h : d < 10) : (digitChar d).isDigit = true := by
  interval_cases d <;> decide

theorem natToDigits_digits {fuel n : Nat} : ∀ c ∈ natToDigits fuel n, c.isDigit = true := by
  induction fuel generalizing n with
  | zero => intro c hc; simp [natToDigits] at hc
  | succ fuel ih =>
    intro c hc
    rw [natToDigits] at hc
    by_cases h0 : n = 0
    · simp [h0] at hc
    · simp only [h0, if_false, List.mem_append, List.mem_singleton] at hc
      rcases hc with hc | hc
      · exact ih c hc
      · subst hc
        exact digitChar_isDigit (Nat.mod_lt _ (by norm_num))

theorem padDigits_length {w n : Nat} (h : n < 10 ^ w) : (padDigits w n).length = w := by
  have hlen : (natToDigits (n + 1) n).length ≤ w :=
    natToDigits_length (Nat.lt_succ_self n) h
  simp only [padDigits, List.length_append, List.length_replicate]
  omega

theorem padDigits_digits {w n : Nat} : ∀ c ∈ padDigits w n, c.isDigit = true := by
  intro c hc
  simp only [padDigits, List.mem_append, List.mem_replicate] at hc
  rcases hc with ⟨-, rfl⟩ | hc
  · decide
  · exact natToDigits_digits c hc

theorem isDigits_padDigits {w n : Nat} : isDigits (padDigits w n) = true := by
  rw [isDigits, List.all_eq_true]
  exact padDigits_digits

theorem isDigits_append {a b : Str} (ha : isDigits a = true) (hb : isDigits b = true) :
    isDigits (a ++ b) = true := by
  simp only [isDigits, List.all_eq_true, List.mem_append] at *
  intro c hc
  rcases hc with hc | hc
  · exact ha c hc
  · exact hb c hc

/-!
## Helper lemmas: format masks and the ISO-8601 shape
-/

theorem matchesMask_append {m1 l1 m2 l2 : Str} (h1 : matchesMask m1 l1 = true)
    (h2 : matchesMask m2 l2 = true) : matchesMask (m1 ++ m2) (l1 ++ l2) = true := by
  induction m1 generalizing l1 with
  | nil =>
    cases l1 with
    | nil => simpa using h2
    | cons c cs => simp [matchesMask] at h1
  | cons m ms ih =>
    cases l1 with
    | nil => simp [matchesMask] at h1
    | cons c cs =>
      rw [matchesMask, Bool.and_eq_true] at h1
      simp only [List.cons_append]
      rw [matchesMask, Bool.and_eq_true]
      exact ⟨h1.1, ih h1.2⟩

theorem matchesMask_digit_block {l : Str} (h : isDigits l = true) :
    matchesMask (List.replicate l.length 'D') l = true := by
  induction l with
  | nil => rfl
  | cons c cs ih =>
    simp only [isDigits, List.all_cons, Bool.and_eq_true] at h
    rw [List.length_cons, List.replicate_succ, matchesMask, Bool.and_eq_true]
    refine ⟨?_, ih h.2⟩
    simp [h.1]

theorem matchesMask_pad {w n : Nat} (h : n < 10 ^ w) :
    matchesMask (List.replicate w 'D') (padDigits w n) = true := by
  nth_rewrite 1 [← padDigits_length h]
  exact matchesMask_digit_block isDigits_padDigits

theorem isIso8601_pyIsoformat (t : PyDateTime) (hy : t.year < 10000)
    (hmo : t.month < 100) (hd : t.day < 100) (hh : t.hour < 100)
    (hmi : t.minute < 100) (hs : t.second < 100) (hus : t.microsecond < 1000000) :
    isIso8601 (pyIsoformat t) = true := by
  have p2 : (10 : Nat) ^ 2 = 100 := by norm_num
  have p4 : (10 : Nat) ^ 4 = 10000 := by norm_num
  have p6 : (10 : Nat) ^ 6 = 1000000 := by norm_num
  have hY := matchesMask_pad (w := 4) (n := t.year) (by rw [p4]; exact hy)
  have hMo := matchesMask_pad (w := 2) (n := t.month) (by rw [p2]; exact hmo)
  have hD := matchesMask_pad (w := 2) (n := t.day) (by rw [p2]; exact hd)
  have hH := matchesMask_pad (w := 2) (n := t.hour) (by rw [p2]; exact hh)
  have hMi := matchesMask_pad (w := 2) (n := t.minute) (by rw [p2]; exact hmi)
  have hS := matchesMask_pad (w := 2) (n := t.second) (by rw [p2]; exact hs)
  have hDash : matchesMask ['-'] ['-'] = true := by decide
  have hT : matchesMask ['T'] ['T'] = true := by decide
  have hColon : matchesMask [':'] [':'] = true := by decide
  rw [isIso8601, Bool.or_eq_true]
  by_cases hu : t.microsecond = 0
  · left
    have hmask : isoMaskBase =
        List.replicate 4 'D' ++ (['-'] ++ (List.replicate 2 'D' ++ (['-'] ++
        (List.replicate 2 'D' ++ (['T'] ++ (List.replicate 2 'D' ++ ([':'] ++
        (List.replicate 2 'D' ++ ([':'] ++ List.replicate 2 'D'))))))))) := by decide
    have hstr : pyIsoformat t =
        padDigits 4 t.year ++ (['-'] ++ (padDigits 2 t.month ++ (['-'] ++
        (padDigits 2 t.day ++ (['T'] ++ (padDigits 2 t.hour ++ ([':'] ++
        (padDigits 2 t.minute ++ ([':'] ++ padDigits 2 t.second))))))))) := by
      simp [pyIsoformat, hu]
    rw [hmask, hstr]
    exact matchesMask_append hY (matchesMask_append hDash (matchesMask_append hMo
      (matchesMask_append hDash (matchesMask_append hD (matchesMask_append hT
      (matchesMask_append hH (matchesMask_append hColon (matchesMask_append hMi
      (matchesMask_append hColon hS)))))))))
  · right
    have hU := matchesMask_pad (w := 6) (n := t.microsecond) (by rw [p6]; exact hus)
    have hDot : matchesMask ['.'] ['.'] = true := by decide
    have hmask : isoMaskMicro =
        List.replicate 4 'D' ++ (['-'] ++ (List.replicate 2 'D' ++ (['-'] ++
        (List.replicate 2 'D' ++ (['T'] ++ (List.replicate 2 'D' ++ ([':'] ++
        (List.replicate 2 'D' ++ ([':'] ++ (List.replicate 2 'D' ++ (['.'] ++
        List.replicate 6 'D'))))))))))) := by decide
    have hstr : pyIsoformat t =
        padDigits 4 t.year ++ (['-'] ++ (padDigits 2 t.month ++ (['-'] ++
        (padDigits 2 t.day ++ (['T'] ++ (padDigits 2 t.hour ++ ([':'] ++
        (padDigits 2 t.minute ++ ([':'] ++ (padDigits 2 t.second ++ (['.'] ++
        padDigits 6 t.microsecond))))))))))) := by
      simp [pyIsoformat, hu]
    rw [hmask, hstr]
    exact matchesMask_append hY (matchesMask_append hDash (matchesMask_append hMo
      (matchesMask_append hDash (matchesMask_append hD (matchesMask_append hT
      (matchesMask_append hH (matchesMask_append hColon (matchesMask_append hMi
      (matchesMask_append hColon (matchesMask_append hS
      (matchesMask_append hDot hU)))))))))))

/-!
## Helper lemmas: the produced filename
-/

theorem saveJsonFilename_amended (p u : Str) (t : PyDateTime)
    (hy : t.year < 10000) (hmo : t.month < 100) (hd : t.day < 100)
    (hh : t.hour < 100) (hmi : t.minute < 100) (hs : t.second < 100) :
    amendedC1Pattern p u (saveJsonFilename p u t) := by
  have p2 : (10 : Nat) ^ 2 = 100 := by norm_num
  have p4 : (10 : Nat) ^ 4 = 10000 := by norm_num
  refine ⟨padDigits 4 t.year ++ (padDigits 2 t.month ++ padDigits 2 t.day),
          padDigits 2 t.hour ++ (padDigits 2 t.minute ++ padDigits 2 t.second),
          ?_, ?_, ?_, ?_, ?_⟩
  · simp [saveJsonFilename, strftimeCompact]
  · simp only [List.length_append]
    rw [padDigits_length (by rw [p4]; exact hy),
        padDigits_length (by rw [p2]; exact hmo),
        padDigits_length (by rw [p2]; exact hd)]
  · exact isDigits_append isDigits_padDigits (isDigits_append isDigits_padDigits isDigits_padDigits)
  · simp only [List.length_append]
    rw [padDigits_length (by rw [p2]; exact hh),
        padDigits_length (by rw [p2]; exact hmi),
        padDigits_length (by rw [p2]; exact hs)]
  · exact isDigits_append isDigits_padDigits (isDigits_append isDigits_padDigits isDigits_padDigits)

/-- C1 (amended): for every platform client, a successful `run` performs
exactly one file write, under the name
`{platform}_{identity}_{8-digit-date}_{6-digit-time}.json` (the code's
`%Y%m%d_%H%M%S` timestamp: 14 digits split by an underscore, not one
run of 14 digits), and the written document carries an
`extraction_date` field equal to `datetime.now().isoformat()`, which is
of ISO-8601 shape. Hypotheses are the ranges every real
`datetime.now()` value satisfies. -/
theorem c1_single_write_and_filename (p u : Str) (t : PyDateTime)
    (hy : t.year < 10000) (hmo : t.month < 100) (hd : t.day < 100)
    (hh : t.hour < 100) (hmi : t.minute < 100) (hs : t.second < 100)
    (hus : t.microsecond < 1000000) :
    (amendedC1Pattern p u (saveJsonFilename p u t)
      ∧ isIso8601 (pyIsoformat t) = true)
    ∧ (∀ env : GitHubEnv, (githubRun env t u).1.isSome = true →
        savedOnce (githubRun env t u) (saveJsonFilename "github".toList u t)
          GitHubDoc.extraction_date t)
    ∧ (∀ env : SOEnv, (soRun env t u).1.isSome = true →
        savedOnce (soRun env t u) (saveJsonFilename "stackoverflow".toList u t)
          SODoc.extraction_date t)
    ∧ (∀ env : YTEnv, (ytRun env t u).1.isSome = true →
        savedOnce (ytRun env t u) (saveJsonFilename "youtube".toList u t)
          YTDoc.extraction_date t)
    ∧ (∀ env : BskyEnv, (bskyRun env t u).1.isSome = true →
        savedOnce (bskyRun env t u) (saveJsonFilename "bluesky".toList u t)
          BskyDoc.extraction_date t)
    ∧ (∀ env : MastoEnv, (mastoRun env t u).1.isSome = true →
        savedOnce (mastoRun env t u) (saveJsonFilename "mastodon".toList u t)
          MastoDoc.extraction_date t)
    ∧ (∀ env : RedditEnv, (redditRun env t u).1.isSome = true →
        savedOnce (redditRun env t u) (saveJsonFilename "reddit".toList u t)
          RedditDoc.extraction_date t)
    ∧ (∀ env : MediumEnv, (mediumRun env t u).1.isSome = true →
        savedOnce (mediumRun env t u) (saveJsonFilename "medium".toList u t)
          MediumDoc.extraction_date t)
    ∧ (∀ env : TgEnv, (tgRun env t u).1.isSome = true →
        savedOnce (tgRun env t u) (saveJsonFilename "telegram".toList u t)
          TgDoc.extraction_date t) := by
  refine ⟨⟨saveJsonFilename_amended p u t hy hmo hd hh hmi hs,
          isIso8601_pyIsoformat t hy hmo hd hh hmi hs hus⟩, ?_, ?_, ?_, ?_, ?_, ?_, ?_, ?_⟩
  · intro env h
    rcases henv : env.profile with _ | info
    · simp [githubRun, henv] at h
    · simp [githubRun, henv, savedOnce]
  · intro env h
    rcases henv : env.search with _ | users
    · simp [soRun, henv] at h
    · simp only [soRun, henv] at h ⊢
      split_ifs at h ⊢ <;> simp_all [savedOnce]
  · intro env h
    rcases hak : env.apiKey with _ | _
    · simp [ytRun, hak] at h
    · rcases henv : env.search with _ | channels
      · simp [ytRun, hak, henv] at h
      · simp only [ytRun, hak, henv, Bool.not_true, Bool.false_eq_true, if_false] at h ⊢
        split_ifs at h ⊢ <;> simp_all [savedOnce]
  · intro env h
    rcases hres : resolveHandle env.resolve u with _ | did
    · simp [bskyRun, hres] at h
    · rcases hprof : env.profile did with _ | prof
      · simp [bskyRun, hres, hprof] at h
      · simp [bskyRun, hres, hprof, savedOnce]
  · intro env h
    rcases henv : env.account with _ | acct
    · simp [mastoRun, henv] at h
    · simp [mastoRun, henv, savedOnce]
  · intro env h
    rcases henv : env.about with _ | info
    · simp [redditRun, henv] at h
    · simp [redditRun, henv, savedOnce]
  · intro env h
    rcases henv : env.feed with _ | articles
    · simp [mediumRun, henv] at h
    · simp only [mediumRun, henv] at h ⊢
      split_ifs at h ⊢ <;> simp_all [savedOnce]
  · intro env h
    rcases hc : env.hasCreds with _ | _
    · simp [tgRun, hc] at h
    · rcases hco : env.connectOk with _ | _
      · simp [tgRun, hc, hco] at h
      · rcases hent : env.entity with _ | info
        · simp [tgRun, hc, hco, hent] at h
        · simp [tgRun, hc, hco, hent, savedOnce]

/-- C1 (counterexample): at platform `github`, identity `octocat`,
instant 2024-01-02 03:04:05, the produced filename
`github_octocat_20240102_030405.json` does not match
`{platform}_{identity}_{14-digit-timestamp}.json`: the region between
the identity and `.json` is 15 characters (`%Y%m%d_%H%M%S` keeps an
underscore between date and time), not 14 digits. -/
theorem c1_counterexample :
    ¬ claimC1Pattern "github".toList "octocat".toList
      (saveJsonFilename "github".toList "octocat".toList ⟨2024, 1, 2, 3, 4, 5, 0⟩) := by
  rintro ⟨ts, heq, hlen, -⟩
  have h35 : (saveJsonFilename "github".toList "octocat".toList
      ⟨2024, 1, 2, 3, 4, 5, 0⟩).length = 35 := by decide
  rw [heq] at h35
  have hg : ("github".toList).length = 6 := by decide
  have ho : ("octocat".toList).length = 7 := by decide
  have hj : (".json".toList).length = 5 := by decide
  simp only [List.length_append, List.length_cons, hg, ho, hj, hlen] at h35
  omega

/-- C1 (witness): the amended statement at platform `github`, identity
`octocat`, instant 2024-01-02 03:04:05.123456, and a GitHub environment
whose profile fetch succeeds. -/
theorem c1_witness :
    amendedC1Pattern "github".toList "octocat".toList
      (saveJsonFilename "github".toList "octocat".toList ⟨2024, 1, 2, 3, 4, 5, 123456⟩)
    ∧ isIso8601 (pyIsoformat ⟨2024, 1, 2, 3, 4, 5, 123456⟩) = true
    ∧ savedOnce
        (githubRun ⟨some "profile".toList, some [], some []⟩
          ⟨2024, 1, 2, 3, 4, 5, 123456⟩ "octocat".toList)
        (saveJsonFilename "github".toList "octocat".toList ⟨2024, 1, 2, 3, 4, 5, 123456⟩)
        GitHubDoc.extraction_date ⟨2024, 1, 2, 3, 4, 5, 123456⟩ := by
  have h := c1_single_write_and_filename "github".toList "octocat".toList
    ⟨2024, 1, 2, 3, 4, 5, 123456⟩ (by decide) (by decide) (by decide) (by decide)
    (by decide) (by decide) (by decide)
  exact ⟨h.1.1, h.1.2, h.2.1 ⟨some "profile".toList, some [], some []⟩ (by decide)⟩

/-- C2 (counterexample): for the dotted input `a.b` and a resolver on
which only `a.b.bsky.social` has a DID, the claimed resolution order
(always try literal, `.bsky.social`, `.com`) would succeed, but
`_resolve_handle` only tries the literal input (the fallback variants
are added only when the input contains no dot) and fails. -/
theorem c2_counterexample :
    claimC2Tried c2Oracle "a.b".toList = some "did:plc:sample".toList
    ∧ resolveHandle c2Oracle "a.b".toList = none
    ∧ resolveHandle c2Oracle "a.b".toList ≠ claimC2Tried c2Oracle "a.b".toList := by
  decide

/-- C2 (amended): the input is first stripped of `@` and surrounding
whitespace; when the cleaned input contains a dot only it is tried,
otherwise the cleaned input, `{h}.bsky.social` and `{h}.com` are tried
in order; the first variant the resolver maps to a DID wins; if no
tried variant resolves, `run` returns `None` and writes nothing. -/
theorem c2_resolution_order (resolve : Str → Option Str) (input : Str) :
    (('.' ∈ cleanHandle input) →
        resolveHandle resolve input = resolve (cleanHandle input))
    ∧ (('.' ∉ cleanHandle input) → ∀ d, resolve (cleanHandle input) = some d →
        resolveHandle resolve input = some d)
    ∧ (('.' ∉ cleanHandle input) → resolve (cleanHandle input) = none →
        ∀ d, resolve (cleanHandle input ++ ".bsky.social".toList) = some d →
        resolveHandle resolve input = some d)
    ∧ (('.' ∉ cleanHandle input) → resolve (cleanHandle input) = none →
        resolve (cleanHandle input ++ ".bsky.social".toList) = none →
        resolveHandle resolve input = resolve (cleanHandle input ++ ".com".toList))
    ∧ (∀ env : BskyEnv, ∀ t : PyDateTime,
        resolveHandle env.resolve input = none → bskyRun env t input = (none, [])) := by
  refine ⟨?_, ?_, ?_, ?_, ?_⟩
  · intro hdot
    simp only [resolveHandle, handlesToTry, if_pos hdot, tryResolve]
    cases hr : resolve (cleanHandle input) <;> rfl
  · intro hdot d hd
    simp only [resolveHandle, handlesToTry, if_neg hdot, tryResolve, hd]
  · intro hdot h1 d hd
    simp only [resolveHandle, handlesToTry, if_neg hdot, tryResolve, h1, hd]
  · intro hdot h1 h2
    simp only [resolveHandle, handlesToTry, if_neg hdot, tryResolve, h1, h2]
    cases hr : resolve (cleanHandle input ++ ".com".toList) <;> rfl
  · intro env t hres
    simp [bskyRun, hres]

/-- C2 (witness): for the undotted input `alice` and a resolver on which
only `alice.bsky.social` has a DID, resolution succeeds with that DID;
and for the environment whose resolver never succeeds, `run` returns
`None` with no write. -/
theorem c2_witness :
    ('.' ∉ cleanHandle "alice".toList)
    ∧ (fun h => if h = "alice.bsky.social".toList
        then some "did:plc:w".toList else none) (cleanHandle "alice".toList) = none
    ∧ resolveHandle
        (fun h => if h = "alice.bsky.social".toList
          then some "did:plc:w".toList else none) "alice".toList
        = some "did:plc:w".toList
    ∧ bskyRun ⟨fun _ => none, fun _ => none, fun _ => none⟩
        ⟨2024, 1, 2, 3, 4, 5, 0⟩ "alice".toList = (none, []) := by
  refine ⟨by decide, by decide, ?_, ?_⟩
  · exact (c2_resolution_order _ "alice".toList).2.2.1 (by decide) (by decide)
      "did:plc:w".toList (by decide)
  · exact (c2_resolution_order (fun _ => none) "alice".toList).2.2.2.2
      ⟨fun _ => none, fun _ => none, fun _ => none⟩ ⟨2024, 1, 2, 3, 4, 5, 0⟩ (by decide)

/-!
## Helper lemmas: candidate selection
-/

theorem selectChannelIndices_eq_selectUserIndices :
    selectChannelIndices = selectUserIndices := rfl

theorem parseSelectionAux_bounds {n : Nat} :
    ∀ (parts : List Str) (acc : List Nat), (∀ i ∈ acc, i < n) →
    ∀ l, parseSelectionAux n parts acc = some l → ∀ i ∈ l, i < n := by
  intro parts
  induction parts with
  | nil =>
    intro acc hacc l hl
    rw [parseSelectionAux] at hl
    cases hl
    exact hacc
  | cons part rest ih =>
    intro acc hacc l hl
    rw [parseSelectionAux] at hl
    cases hp : pyInt (pyStrip part) with
    | none => rw [hp] at hl; simp at hl
    | some v =>
      simp only [hp] at hl
      by_cases hc : 0 ≤ v - 1 ∧ v - 1 < (n : Int)
      · rw [if_pos hc] at hl
        refine ih _ ?_ l hl
        intro i hi
        rcases List.mem_append.mp hi with hi | hi
        · exact hacc i hi
        · simp only [List.mem_singleton] at hi
          subst hi
          omega
      · rw [if_neg hc] at hl
        exact ih _ hacc l hl

theorem parseSelectionAux_of_bad_token {n : Nat} :
    ∀ (parts : List Str) (acc : List Nat),
    (∃ p ∈ parts, pyInt (pyStrip p) = none) →
    parseSelectionAux n parts acc = none := by
  intro parts
  induction parts with
  | nil => rintro acc ⟨p, hp, -⟩; simp at hp
  | cons part rest ih =>
    rintro acc ⟨p, hp, hbad⟩
    rw [parseSelectionAux]
    rcases List.mem_cons.mp hp with rfl | hp
    · rw [hbad]
    · cases hq : pyInt (pyStrip part) with
      | none => rfl
      | some v =>
        simp only [hq]
        by_cases hc : 0 ≤ v - 1 ∧ v - 1 < (n : Int)
        · rw [if_pos hc]; exact ih _ ⟨p, hp, hbad⟩
        · rw [if_neg hc]; exact ih _ ⟨p, hp, hbad⟩

theorem selectUserIndices_sound {n : Nat} (hn : 1 ≤ n) (choice : Str) :
    (selectUserIndices n choice).1 ≠ []
    ∧ ∀ i ∈ (selectUserIndices n choice).1, i < n := by
  simp only [selectUserIndices]
  by_cases hc : pyStrip choice = []
  · rw [if_pos hc]
    refine ⟨?_, ?_⟩
    · simp only [ne_eq, List.range_eq_nil]
      omega
    · intro i hi
      exact List.mem_range.mp hi
  · rw [if_neg hc]
    cases hp : parseSelectionAux n (splitChar ',' (pyStrip choice)) [] with
    | none =>
      refine ⟨by simp, ?_⟩
      intro i hi
      simp only [List.mem_singleton] at hi
      omega
    | some idxs =>
      cases idxs with
      | nil =>
        refine ⟨by simp, ?_⟩
        intro i hi
        simp only [List.mem_singleton] at hi
        omega
      | cons a l =>
        refine ⟨by simp, ?_⟩
        exact parseSelectionAux_bounds _ [] (by simp) _ hp

/-- C3: in Stack Overflow and YouTube candidate selection, input `1,3`
against 5 candidates selects exactly candidates 1 and 3 (0-based
indices 0 and 2); empty input selects all candidates; input `99`
against 5 candidates selects exactly the first candidate with a
warning; and for every input string over a non-empty candidate list the
selection returns a non-empty list of in-range indices (the embedding
is total: every exception the parse can raise is caught by the
selector's `except`, so the code never raises and never yields an empty
selection). -/
theorem c3_candidate_selection :
    (selectUserIndices 5 "1,3".toList = ([0, 2], false)
      ∧ selectChannelIndices 5 "1,3".toList = ([0, 2], false))
    ∧ (∀ n : Nat, selectUserIndices n "".toList = (List.range n, false)
      ∧ selectChannelIndices n "".toList = (List.range n, false))
    ∧ (selectUserIndices 5 "99".toList = ([0], true)
      ∧ selectChannelIndices 5 "99".toList = ([0], true))
    ∧ (∀ (n : Nat) (choice : Str), 1 ≤ n →
      ((selectUserIndices n choice).1 ≠ []
        ∧ (∀ i ∈ (selectUserIndices n choice).1, i < n))
      ∧ ((selectChannelIndices n choice).1 ≠ []
        ∧ (∀ i ∈ (selectChannelIndices n choice).1, i < n))) := by
  refine ⟨⟨by decide, by decide⟩, fun n => ⟨rfl, rfl⟩, ⟨by decide, by decide⟩, ?_⟩
  intro n choice hn
  rw [selectChannelIndices_eq_selectUserIndices]
  exact ⟨selectUserIndices_sound hn choice, selectUserIndices_sound hn choice⟩

/-- C3 (witness): the universally quantified part instantiated at 5
candidates and the unparsable input `xyz`. -/
theorem c3_witness :
    ((selectUserIndices 5 "xyz".toList).1 ≠ []
      ∧ (∀ i ∈ (selectUserIndices 5 "xyz".toList).1, i < 5))
    ∧ ((selectChannelIndices 5 "xyz".toList).1 ≠ []
      ∧ (∀ i ∈ (selectChannelIndices 5 "xyz".toList).1, i < 5)) :=
  c3_candidate_selection.2.2.2 5 "xyz".toList (by decide)

/-- C9: in Stack Overflow and YouTube candidate selection, a
comma-separated input containing any token that does not parse as an
integer makes `int(part.strip())` raise `ValueError`, which the
`except` clause turns into exactly the first candidate with a warning —
every valid in-range index in the other tokens of the same input is
discarded. -/
theorem c9_bad_token_discards_selection (n : Nat) (choice : Str)
    (hn : 1 ≤ n) (hne : pyStrip choice ≠ [])
    (hbad : ∃ p ∈ splitChar ',' (pyStrip choice), pyInt (pyStrip p) = none) :
    selectUserIndices n choice = ([0], true)
    ∧ selectChannelIndices n choice = ([0], true) := by
  rw [selectChannelIndices_eq_selectUserIndices, and_self]
  simp only [selectUserIndices]
  rw [if_neg hne, parseSelectionAux_of_bad_token _ [] hbad]

/-- C9 (witness): input `2,abc` against 5 candidates: token `2` is a
valid in-range index, token `abc` is not an integer, and the selection
is exactly the first candidate with a warning. -/
theorem c9_witness :
    (∃ p ∈ splitChar ',' (pyStrip "2,abc".toList), pyInt (pyStrip p) = none)
    ∧ selectUserIndices 5 "2,abc".toList = ([0], true)
    ∧ selectChannelIndices 5 "2,abc".toList = ([0], true) := by
  refine ⟨by decide, ?_, ?_⟩
  · exact (c9_bad_token_discards_selection 5 "2,abc".toList (by decide) (by decide)
      (by decide)).1
  · exact (c9_bad_token_discards_selection 5 "2,abc".toList (by decide) (by decide)
      (by decide)).2

/-- C4: every capped collection fetch returns at most its declared cap,
whatever the upstream source supplies: Bluesky posts ≤ 200, Mastodon
toots ≤ 200, Telegram messages ≤ 800, for every feed server, statuses
server, start URL and message stream. -/
theorem c4_collection_caps
    (bserver : Option Str → Option (List Str × Option Str))
    (mserver : Str → Option (List Str × Str)) (initUrl : Str)
    (stream : Option (List Str)) :
    (bskyGetPosts bserver).1.length ≤ bskyMaxPosts
    ∧ (mastoGetStatuses mserver initUrl).1.length ≤ mastoMaxToots
    ∧ (tgExtractMessages stream).length ≤ tgMaxMessages := by
  refine ⟨?_, ?_, ?_⟩
  · simp only [bskyGetPosts]
    rw [List.length_take]
    exact Nat.min_le_left _ _
  · simp only [mastoGetStatuses]
    rw [List.length_take]
    exact Nat.min_le_left _ _
  · cases stream with
    | none => simp [tgExtractMessages]
    | some msgs =>
      simp only [tgExtractMessages]
      rw [List.length_take]
      exact Nat.min_le_left _ _

/-- C6: for the GitHub client, a failed events fetch still yields a
successful run whose single saved document has `events = []`, while a
failed profile fetch makes `run` return `None` with no write at all. -/
theorem c6_degraded_vs_fatal (env : GitHubEnv) (t : PyDateTime) (u : Str) :
    (env.events = none → ∀ info, env.profile = some info →
      (githubRun env t u).1.isSome = true
      ∧ ∃ fn doc, (githubRun env t u).2 = [(fn, doc)] ∧ doc.events = [])
    ∧ (env.profile = none → githubRun env t u = (none, [])) := by
  constructor
  · intro hev info hprof
    simp [githubRun, hprof, hev]
    exact ⟨_, _, ⟨rfl, rfl⟩, rfl⟩
  · intro hprof
    simp [githubRun, hprof]

/-- C6 (witness): a concrete environment whose profile fetch succeeds
and whose events fetch fails, and one whose profile fetch fails. -/
theorem c6_witness :
    ((githubRun ⟨some "profile".toList, some ["r".toList], none⟩
        ⟨2024, 1, 2, 3, 4, 5, 0⟩ "octocat".toList).1.isSome = true
      ∧ ∃ fn doc,
        (githubRun ⟨some "profile".toList, some ["r".toList], none⟩
          ⟨2024, 1, 2, 3, 4, 5, 0⟩ "octocat".toList).2 = [(fn, doc)] ∧ doc.events = [])
    ∧ githubRun ⟨none, some ["r".toList], some ["e".toList]⟩
        ⟨2024, 1, 2, 3, 4, 5, 0⟩ "octocat".toList = (none, []) :=
  ⟨(c6_degraded_vs_fatal ⟨some "profile".toList, some ["r".toList], none⟩
      ⟨2024, 1, 2, 3, 4, 5, 0⟩ "octocat".toList).1 rfl "profile".toList rfl,
   (c6_degraded_vs_fatal ⟨none, some ["r".toList], some ["e".toList]⟩
      ⟨2024, 1, 2, 3, 4, 5, 0⟩ "octocat".toList).2 rfl⟩

/-- C7: for every platform client, when identity resolution fails,
`run` returns `None` and performs zero file writes: GitHub profile
fetch failed, Stack Overflow user search failed or empty, YouTube
channel search failed, Bluesky handle unresolved, Mastodon account
lookup failed, Reddit `about` lookup failed or without `data`, Medium
feed fetch/parse failed, Telegram entity lookup failed. -/
theorem c7_resolution_failure_no_writes (t : PyDateTime) (u : Str) :
    (∀ env : GitHubEnv, env.profile = none → githubRun env t u = (none, []))
    ∧ (∀ env : SOEnv, env.search = none ∨ env.search = some [] →
        soRun env t u = (none, []))
    ∧ (∀ env : YTEnv, env.search = none ∨ env.search = some [] →
        ytRun env t u = (none, []))
    ∧ (∀ env : BskyEnv, resolveHandle env.resolve u = none →
        bskyRun env t u = (none, []))
    ∧ (∀ env : MastoEnv, env.account = none → mastoRun env t u = (none, []))
    ∧ (∀ env : RedditEnv, env.about = none → redditRun env t u = (none, []))
    ∧ (∀ env : MediumEnv, env.feed = none → mediumRun env t u = (none, []))
    ∧ (∀ env : TgEnv, env.entity = none → tgRun env t u = (none, [])) := by
  refine ⟨?_, ?_, ?_, ?_, ?_, ?_, ?_, ?_⟩
  · intro env h; simp [githubRun, h]
  · rintro env (h | h) <;> simp [soRun, h]
  · rintro env (h | h) <;> cases hak : env.apiKey <;> simp [ytRun, h, hak]
  · intro env h; simp [bskyRun, h]
  · intro env h; simp [mastoRun, h]
  · intro env h; simp [redditRun, h]
  · intro env h; simp [mediumRun, h]
  · intro env h
    cases hc : env.hasCreds <;> cases hco : env.connectOk <;> simp [tgRun, h, hc, hco]

/-- C7 (witness): concrete failing environments for three clients. -/
theorem c7_witness :
    githubRun ⟨none, none, none⟩ ⟨2024, 1, 2, 3, 4, 5, 0⟩ "u".toList = (none, [])
    ∧ redditRun ⟨none, none, none⟩ ⟨2024, 1, 2, 3, 4, 5, 0⟩ "u".toList = (none, [])
    ∧ bskyRun ⟨fun _ => none, fun _ => none, fun _ => none⟩
        ⟨2024, 1, 2, 3, 4, 5, 0⟩ "u".toList = (none, []) :=
  ⟨(c7_resolution_failure_no_writes ⟨2024, 1, 2, 3, 4, 5, 0⟩ "u".toList).1
      ⟨none, none, none⟩ rfl,
   (c7_resolution_failure_no_writes ⟨2024, 1, 2, 3, 4, 5, 0⟩ "u".toList).2.2.2.2.2.1
      ⟨none, none, none⟩ rfl,
   (c7_resolution_failure_no_writes ⟨2024, 1, 2, 3, 4, 5, 0⟩ "u".toList).2.2.2.1
      ⟨fun _ => none, fun _ => none, fun _ => none⟩ (by decide)⟩

/-- C10: for the Medium client, a successfully fetched and parsed feed
with zero items makes `run` return `None` with no write — at the `run`
interface it is indistinguishable from a fetch or parse failure
(`if not articles` is taken both for `None` and for `[]`). -/
theorem c10_empty_feed_indistinguishable (t : PyDateTime) (u : Str) :
    mediumRun ⟨some []⟩ t u = (none, [])
    ∧ mediumRun ⟨none⟩ t u = (none, [])
    ∧ mediumRun ⟨some []⟩ t u = mediumRun ⟨none⟩ t u := by
  refine ⟨?_, rfl, ?_⟩ <;> simp [mediumRun]

/-!
## Helper lemmas: the orchestrator's results mapping
-/

theorem dictLookup_insert_self (k : Str) (v : PResult) :
    ∀ d, dictLookup k (dictInsert k v d) = some v := by
  intro d
  induction d with
  | nil => simp [dictInsert, dictLookup]
  | cons kv rest ih =>
    obtain ⟨k', v'⟩ := kv
    by_cases h : k' = k
    · simp [dictInsert, dictLookup, h]
    · simp only [dictInsert, if_neg h, dictLookup]
      exact ih

theorem dictLookup_insert_other (k k' : Str) (v : PResult) (h : k' ≠ k) :
    ∀ d, dictLookup k (dictInsert k' v d) = dictLookup k d := by
  intro d
  induction d with
  | nil => simp [dictInsert, dictLookup, h]
  | cons kv rest ih =>
    obtain ⟨k'', v''⟩ := kv
    by_cases h2 : k'' = k'
    · subst h2
      simp [dictInsert, dictLookup, h]
    · simp only [dictInsert, if_neg h2, dictLookup]
      by_cases h3 : k'' = k
      · rw [if_pos h3, if_pos h3]
      · rw [if_neg h3, if_neg h3]
        exact ih

theorem runExtractions_lookup_untouched (k : Str) :
    ∀ (tasks : List PlatformTask) (d : List (Str × PResult)),
    (∀ task ∈ tasks, task.name ≠ k) →
    dictLookup k (runExtractions tasks d) = dictLookup k d := by
  intro tasks
  induction tasks with
  | nil => intro d _; rfl
  | cons task rest ih =>
    intro d h
    rw [runExtractions, ih _ (fun t ht => h t (List.mem_cons_of_mem _ ht)),
        dictLookup_insert_other _ _ _ (h task (List.mem_cons_self _ _))]

theorem runExtractions_lookup :
    ∀ (tasks : List PlatformTask),
    (tasks.map PlatformTask.name).Nodup →
    ∀ (d : List (Str × PResult)) (task : PlatformTask), task ∈ tasks →
    dictLookup task.name (runExtractions tasks d) = some (taskResult task) := by
  intro tasks
  induction tasks with
  | nil => intro _ d task htask; simp at htask
  | cons t rest ih =>
    intro hnodup d task htask
    rw [List.map_cons, List.nodup_cons] at hnodup
    rcases List.mem_cons.mp htask with rfl | htask
    · rw [runExtractions]
      have hrest : ∀ t' ∈ rest, t'.name ≠ task.name := by
        intro t' ht' heq
        exact hnodup.1 (heq ▸ List.mem_map_of_mem PlatformTask.name ht')
      rw [runExtractions_lookup_untouched _ _ _ hrest, dictLookup_insert_self]
    · rw [runExtractions]
      exact ih hnodup.2 _ task htask

/-- C8: the orchestrator's extraction loop processes every selected
platform: each platform of the task list gets exactly one recorded
entry in the results mapping — an exception raised by that platform's
`run` is caught and recorded as `success = false`, a returned filename
is recorded as `success = true` with the moved path — and the entry of
every platform is present no matter what the other platforms did
(a single platform's failure never aborts the loop). Platform names
are assumed distinct, as `ExtractorOrchestrator.PLATFORMS` guarantees. -/
theorem c8_failure_isolation (tasks : List PlatformTask)
    (hnodup : (tasks.map PlatformTask.name).Nodup) :
    ∀ task ∈ tasks, ∃ r : PResult,
      dictLookup task.name (runExtractions tasks []) = some r
      ∧ r.username = task.username
      ∧ (task.outcome = .raised → r.success = false)
      ∧ (task.createOk = true → ∀ fn, task.outcome = .ok fn →
          r.success = true ∧ r.filename = some (movedPath fn)) := by
  intro task htask
  refine ⟨taskResult task, runExtractions_lookup tasks hnodup [] task htask, ?_, ?_, ?_⟩
  · cases hok : task.createOk <;> cases ho : task.outcome <;> simp [taskResult, hok, ho]
  · intro hr
    cases hok : task.createOk <;> simp [taskResult, hok, hr]
  · intro hok fn ho
    simp [taskResult, hok, ho]

/-- C8 (witness): a two-platform list in which the first platform's
`run` raises; the raised platform is recorded as a failure and the
following platform is still processed and recorded as a success. -/
theorem c8_witness :
    (∃ r : PResult,
      dictLookup "github".toList
        (runExtractions [⟨"github".toList, "u".toList, true, .raised⟩,
          ⟨"reddit".toList, "u".toList, true, .ok "f.json".toList⟩] []) = some r
      ∧ r.username = "u".toList
      ∧ (RunOutcome.raised = RunOutcome.raised → r.success = false)
      ∧ (true = true → ∀ fn, RunOutcome.raised = RunOutcome.ok fn →
          r.success = true ∧ r.filename = some (movedPath fn)))
    ∧ (∃ r : PResult,
      dictLookup "reddit".toList
        (runExtractions [⟨"github".toList, "u".toList, true, .raised⟩,
          ⟨"reddit".toList, "u".toList, true, .ok "f.json".toList⟩] []) = some r
      ∧ r.username = "u".toList
      ∧ (RunOutcome.ok "f.json".toList = RunOutcome.raised → r.success = false)
      ∧ (true = true → ∀ fn, RunOutcome.ok "f.json".toList = RunOutcome.ok fn →
          r.success = true ∧ r.filename = some (movedPath fn))) :=
  ⟨c8_failure_isolation
      [⟨"github".toList, "u".toList, true, .raised⟩,
       ⟨"reddit".toList, "u".toList, true, .ok "f.json".toList⟩] (by decide)
      ⟨"github".toList, "u".toList, true, .raised⟩ (by decide),
   c8_failure_isolation
      [⟨"github".toList, "u".toList, true, .raised⟩,
       ⟨"reddit".toList, "u".toList, true, .ok "f.json".toList⟩] (by decide)
      ⟨"reddit".toList, "u".toList, true, .ok "f.json".toList⟩ (by decide)⟩

/-!
## Helper lemmas: the mock paginated sources and the fetch loops
-/

theorem bskyMock_at_cursor (N K : Nat) (item : Str) (i : Nat) (h1 : 1 ≤ i) (hK : i ≤ K) :
    bskyMock N K item (bskyCursor i) =
      some (List.replicate N item,
        if i < K then some (List.replicate (i + 1) 'c') else none) := by
  by_cases hi1 : i = 1
  · subst hi1
    simp [bskyMock, bskyCursor, hK]
  · simp [bskyMock, bskyCursor, hi1, h1, hK]

theorem bskyLoop_mock (N K : Nat) (item : Str) (hN : 1 ≤ N) (hcap : N * K < bskyMaxPosts) :
    ∀ (j i : Nat), i + j = K → 1 ≤ i →
    ∀ (acc : List Str) (r : Nat), acc.length = N * (i - 1) →
    getPostsLoop (bskyMock N K item) acc (bskyCursor i) r
      = (acc ++ List.replicate (N * (j + 1)) item, r + (j + 1)) := by
  intro j
  induction j with
  | zero =>
    intro i hij h1 acc r hlen
    have hiK : i = K := by omega
    subst hiK
    rw [getPostsLoop]
    have hlt : acc.length < bskyMaxPosts := by
      have h2 : N * (i - 1) ≤ N * i := Nat.mul_le_mul_left N (by omega)
      omega
    rw [dif_pos hlt]
    rw [bskyMock_at_cursor N i item i h1 (le_refl i)]
    rw [if_neg (lt_irrefl i)]
    have hfeed : ¬(List.replicate N item = []) := by
      rw [List.replicate_eq_nil_iff]
      omega
    simp only [dif_neg hfeed]
    simp [Nat.mul_one]
  | succ j ih =>
    intro i hij h1 acc r hlen
    have hiK : i < K := by omega
    rw [getPostsLoop]
    have hlt : acc.length < bskyMaxPosts := by
      have h2 : N * (i - 1) ≤ N * K := Nat.mul_le_mul_left N (by omega)
      omega
    rw [dif_pos hlt]
    rw [bskyMock_at_cursor N K item i h1 (by omega)]
    rw [if_pos hiK]
    have hfeed : ¬(List.replicate N item = []) := by
      rw [List.replicate_eq_nil_iff]
      omega
    simp only [dif_neg hfeed]
    have hcne : ¬(List.replicate (i + 1) 'c' = []) := by
      rw [List.replicate_eq_nil_iff]
      omega
    rw [if_neg hcne]
    have hcur : (some (List.replicate (i + 1) 'c') : Option Str) = bskyCursor (i + 1) := by
      rw [bskyCursor, if_neg (by omega : ¬(i + 1 = 1))]
    rw [hcur]
    have hlen' : (acc ++ List.replicate N item).length = N * ((i + 1) - 1) := by
      rw [List.length_append, List.length_replicate, hlen]
      have hi' : i - 1 + 1 = i := by omega
      calc N * (i - 1) + N = N * (i - 1 + 1) := (Nat.mul_succ N (i - 1)).symm
      _ = N * i := by rw [hi']
      _ = N * ((i + 1) - 1) := by rw [Nat.add_sub_cancel]
    rw [ih (i + 1) (by omega) (by omega) _ (r + 1) hlen']
    rw [List.append_assoc, ← List.replicate_add]
    have harith : N + N * (j + 1) = N * (j + 1 + 1) := by ring
    rw [harith]
    have : r + 1 + (j + 1) = r + (j + 1 + 1) := by omega
    rw [this]

theorem bskyGetPosts_mock (N K : Nat) (item : Str) (hN : 1 ≤ N) (hK : 1 ≤ K)
    (hcap : N * K < bskyMaxPosts) :
    bskyGetPosts (bskyMock N K item) = (List.replicate (N * K) item, K) := by
  have h := bskyLoop_mock N K item hN hcap (K - 1) 1 (by omega) (le_refl 1) [] 0 (by simp)
  rw [show bskyCursor 1 = none from rfl] at h
  have hK' : K - 1 + 1 = K := by omega
  rw [hK', List.nil_append, Nat.zero_add] at h
  simp only [bskyGetPosts, h]
  rw [List.take_of_length_le]
  rw [List.length_replicate]
  omega

theorem splitChar_of_not_mem {sep : Char} : ∀ {l : Str}, sep ∉ l → splitChar sep l = [l] := by
  intro l
  induction l with
  | nil => intro _; rfl
  | cons c rest ih =>
    intro h
    simp only [List.mem_cons, not_or] at h
    have hc : ¬(c = sep) := fun hcc => h.1 hcc.symm
    simp only [splitChar]
    rw [if_neg hc, ih h.2]

theorem splitChar_append_sep {sep : Char} :
    ∀ {xs : Str} (ys : Str), sep ∉ xs →
    splitChar sep (xs ++ sep :: ys) = xs :: splitChar sep ys := by
  intro xs
  induction xs with
  | nil =>
    intro ys _
    simp [splitChar]
  | cons c rest ih =>
    intro ys h
    simp only [List.mem_cons, not_or] at h
    have hc : ¬(c = sep) := fun hcc => h.1 hcc.symm
    simp only [List.cons_append, splitChar, List.append_eq]
    rw [if_neg hc, ih ys h.2]

theorem splitChar_pair {sep : Char} {xs ys : Str} (hx : sep ∉ xs) (hy : sep ∉ ys) :
    splitChar sep (xs ++ sep :: ys) = [xs, ys] := by
  rw [splitChar_append_sep ys hx, splitChar_of_not_mem hy]

theorem pyStrip_wrapped {a b : Char} {mid : Str}
    (ha : isPySpace a = false) (hb : isPySpace b = false) :
    pyStrip (a :: (mid ++ [b])) = a :: (mid ++ [b]) := by
  simp [pyStrip, List.dropWhile_cons, ha, hb, List.reverse_append]

theorem parseLinkHeader_mkNext {url : Str} (hc : ',' ∉ url) (hs : ';' ∉ url) :
    parseLinkHeader (mkNextHeader url) "next".toList = some url := by
  have hshape : mkNextHeader url =
      ('<' :: (url ++ ['>'])) ++ ';' :: (' ' :: "rel=\"next\"".toList) := by
    simp [mkNextHeader]
  have hnocomma : ',' ∉ mkNextHeader url := by
    rw [hshape]
    simp only [List.mem_append, List.mem_cons, List.mem_singleton, not_or]
    refine ⟨⟨by decide, hc, by decide⟩, by decide, by decide⟩
  have hnosemi : ';' ∉ ('<' :: (url ++ ['>'])) := by
    simp only [List.mem_cons, List.mem_append, List.mem_singleton, not_or]
    exact ⟨by decide, hs, by decide⟩
  have hne : mkNextHeader url ≠ [] := by
    rw [mkNextHeader]
    exact List.cons_ne_nil _ _
  rw [parseLinkHeader, if_neg hne, splitChar_of_not_mem hnocomma]
  rw [parseLinkHeaderGo, hshape, splitChar_pair hnosemi (by decide)]
  simp only []
  rw [pyStrip_wrapped (by decide) (by decide)]
  rw [show pyStrip (' ' :: "rel=\"next\"".toList) = "rel=\"next\"".toList from by decide]
  rw [if_pos (by decide)]
  simp only [List.drop_succ_cons, List.drop_zero, List.dropLast_concat]

theorem mastoMock_at_url (N K : Nat) (item : Str) (i : Nat) (h1 : 1 ≤ i) (hK : i ≤ K) :
    mastoMock N K item (mastoUrl i) =
      some (List.replicate N item,
        if i < K then mkNextHeader (mastoUrl (i + 1)) else []) := by
  simp [mastoMock, mastoUrl, h1, hK]

theorem parseLinkHeader_mockUrl (i : Nat) :
    parseLinkHeader (mkNextHeader (mastoUrl i)) "next".toList = some (mastoUrl i) := by
  refine parseLinkHeader_mkNext ?_ ?_ <;> simp [mastoUrl, List.mem_replicate]

theorem mastoLoop_mock (N K : Nat) (item : Str) (hN : 1 ≤ N) (hcap : N * K < mastoMaxToots) :
    ∀ (j i : Nat), i + j = K → 1 ≤ i →
    ∀ (acc : List Str) (r : Nat), acc.length = N * (i - 1) →
    getStatusesLoop (mastoMock N K item) acc (mastoUrl i) r
      = (acc ++ List.replicate (N * (j + 1)) item, r + (j + 1)) := by
  intro j
  induction j with
  | zero =>
    intro i hij h1 acc r hlen
    have hiK : i = K := by omega
    subst hiK
    rw [getStatusesLoop]
    have hlt : acc.length < mastoMaxToots := by
      have h2 : N * (i - 1) ≤ N * i := Nat.mul_le_mul_left N (by omega)
      omega
    rw [dif_pos hlt]
    rw [mastoMock_at_url N i item i h1 (le_refl i)]
    rw [if_neg (lt_irrefl i)]
    have hpage : ¬(List.replicate N item = []) := by
      rw [List.replicate_eq_nil_iff]
      omega
    simp only [dif_neg hpage]
    rw [show parseLinkHeader [] "next".toList = none from rfl]
    simp [Nat.mul_one]
  | succ j ih =>
    intro i hij h1 acc r hlen
    have hiK : i < K := by omega
    rw [getStatusesLoop]
    have hlt : acc.length < mastoMaxToots := by
      have h2 : N * (i - 1) ≤ N * K := Nat.mul_le_mul_left N (by omega)
      omega
    rw [dif_pos hlt]
    rw [mastoMock_at_url N K item i h1 (by omega)]
    rw [if_pos hiK]
    have hpage : ¬(List.replicate N item = []) := by
      rw [List.replicate_eq_nil_iff]
      omega
    simp only [dif_neg hpage]
    simp only [parseLinkHeader_mockUrl (i + 1)]
    have hlen' : (acc ++ List.replicate N item).length = N * ((i + 1) - 1) := by
      rw [List.length_append, List.length_replicate, hlen]
      have hi' : i - 1 + 1 = i := by omega
      calc N * (i - 1) + N = N * (i - 1 + 1) := (Nat.mul_succ N (i - 1)).symm
      _ = N * i := by rw [hi']
      _ = N * ((i + 1) - 1) := by rw [Nat.add_sub_cancel]
    rw [ih (i + 1) (by omega) (by omega) _ (r + 1) hlen']
    rw [List.append_assoc, ← List.replicate_add]
    have harith : N + N * (j + 1) = N * (j + 1 + 1) := by ring
    rw [harith]
    have hr : r + 1 + (j + 1) = r + (j + 1 + 1) := by omega
    rw [hr]

theorem mastoGetStatuses_mock (N K : Nat) (item : Str) (hN : 1 ≤ N) (hK : 1 ≤ K)
    (hcap : N * K < mastoMaxToots) :
    mastoGetStatuses (mastoMock N K item) (mastoUrl 1) = (List.replicate (N * K) item, K) := by
  have h := mastoLoop_mock N K item hN hcap (K - 1) 1 (by omega) (le_refl 1) [] 0 (by simp)
  have hK' : K - 1 + 1 = K := by omega
  rw [hK', List.nil_append, Nat.zero_add] at h
  simp only [mastoGetStatuses, h]
  rw [List.take_of_length_le]
  rw [List.length_replicate]
  omega

/-- C5: against a mock paginated source that serves `N ≥ 1` items per
page and reports a null/absent continuation indicator after page
`K ≥ 1`, with `N * K` below the 200-item cap, both paginated fetch
loops (Bluesky via cursor, Mastodon via `Link` header) issue exactly
`K` page requests — stopping after page `K` with no extra request — and
return `min(N * K, cap)` items. -/
theorem c5_pagination_termination (N K : Nat) (item : Str)
    (hN : 1 ≤ N) (hK : 1 ≤ K) (hcap : N * K < 200) :
    ((bskyGetPosts (bskyMock N K item)).2 = K
      ∧ (bskyGetPosts (bskyMock N K item)).1.length = min (N * K) bskyMaxPosts)
    ∧ ((mastoGetStatuses (mastoMock N K item) (mastoUrl 1)).2 = K
      ∧ (mastoGetStatuses (mastoMock N K item) (mastoUrl 1)).1.length
          = min (N * K) mastoMaxToots) := by
  have hb := bskyGetPosts_mock N K item hN hK hcap
  have hm := mastoGetStatuses_mock N K item hN hK hcap
  rw [hb, hm]
  refine ⟨⟨rfl, ?_⟩, ⟨rfl, ?_⟩⟩ <;>
    · rw [List.length_replicate]
      have h200 : bskyMaxPosts = 200 := rfl
      have h200m : mastoMaxToots = 200 := rfl
      omega

/-- C5 (witness): the mock source with 2 items per page and 3 pages:
both loops issue exactly 3 requests and collect 6 items. -/
theorem c5_witness :
    ((bskyGetPosts (bskyMock 2 3 "p".toList)).2 = 3
      ∧ (bskyGetPosts (bskyMock 2 3 "p".toList)).1.length = min (2 * 3) bskyMaxPosts)
    ∧ ((mastoGetStatuses (mastoMock 2 3 "p".toList) (mastoUrl 1)).2 = 3
      ∧ (mastoGetStatuses (mastoMock 2 3 "p".toList) (mastoUrl 1)).1.length
          = min (2 * 3) mastoMaxToots) :=
  c5_pagination_termination 2 3 "p".toList (by decide) (by decide) (by decide)
